import Mathlib

/-!
Verification of the `rust_decimal_cql` codec (src/lib.rs, src/error.rs).

The crate converts between a decimal value (signed 128-bit mantissa plus
non-negative scale) and the CQL wire format for the `decimal` column type:
a 4-byte big-endian scale field followed by a big-endian two's-complement
mantissa field.  We embed the byte-level codec shallowly: byte slices are
`List Nat` (each entry a byte value), `u32` and `i128` arithmetic is spelled
out with explicit `% 2^32` / `% 2^128` reductions, Rust `Result` together
with its panic paths becomes the `RustResult` type below.
-/

namespace RustDecimalCql

/-- `DecimalCqlError` from src/error.rs (lines 5-10), constructor for
constructor. -/
inductive DecimalCqlError where
  | MismatchedType (msg : String)
  | FrameHasNoSlice
  | ByteArrayTooShort (len : Nat)
  | InvalidMantissaConversion
  deriving DecidableEq, Repr

/-- Outcome of a Rust computation that returns `Result` but also contains
potential panic sites (`expect`): either a value, a typed error, or a panic
with its message.  Modelling panics explicitly lets us prove they are
unreachable. -/
inductive RustResult (ε α : Type) where
  | ok (val : α)
  | err (e : ε)
  | panic (msg : String)
  deriving DecidableEq, Repr

/-- `NativeType` of the scylla host framework, as matched by `type_check`
(src/lib.rs line 88).  Only the `Decimal` tag is distinguished by the code;
the other native tags are listed so that mismatches are concrete values. -/
inductive NativeType where
  | Ascii | Boolean | Blob | Counter | Date | Decimal | Double | Duration
  | Float | Int | BigInt | Text | Timestamp | Inet | SmallInt | TinyInt
  | Time | Timeuuid | Uuid | Varint
  deriving DecidableEq, Repr

/-- Debug rendering of a `NativeType`, matching Rust's derived `Debug`
output used in the `format!` call at src/lib.rs line 89. -/
def nativeTypeDebug : NativeType → String
  | .Ascii => "Ascii" | .Boolean => "Boolean" | .Blob => "Blob"
  | .Counter => "Counter" | .Date => "Date" | .Decimal => "Decimal"
  | .Double => "Double" | .Duration => "Duration" | .Float => "Float"
  | .Int => "Int" | .BigInt => "BigInt" | .Text => "Text"
  | .Timestamp => "Timestamp" | .Inet => "Inet" | .SmallInt => "SmallInt"
  | .TinyInt => "TinyInt" | .Time => "Time" | .Timeuuid => "Timeuuid"
  | .Uuid => "Uuid" | .Varint => "Varint"

/-- `ColumnType` of the scylla host framework.  `type_check` only
distinguishes `Native(NativeType)` from everything else, so the non-native
constructors (`Collection`, `Tuple`, `UserDefinedType`, `Vector`) are
abstracted as `Other` carrying their `Debug` rendering. -/
inductive ColumnType where
  | Native (n : NativeType)
  | Other (debugRepr : String)
  deriving DecidableEq, Repr

/-- Debug rendering of a `ColumnType`, matching Rust's derived `Debug`
output: `Native(Decimal)`, `Native(Int)`, ... -/
def columnTypeDebug : ColumnType → String
  | .Native n => "Native(" ++ nativeTypeDebug n ++ ")"
  | .Other s => s

/-- `SCALE_BYTES` constant, src/lib.rs line 14. -/
def SCALE_BYTES : Nat := 4

/-- `PADDING_BYTES` constant, src/lib.rs line 15. -/
def PADDING_BYTES : Nat := 16

/-- Rust's `<&[u8] as TryInto<[u8; n]>>::try_into`: succeeds exactly when
the slice has length `n`. -/
def try_into_array (n : Nat) (bs : List Nat) : Option (List Nat) :=
  if bs.length = n then some bs else none

/-- Big-endian interpretation of a byte list as an unsigned number;
`u32::from_be_bytes` on a 4-byte list. -/
def be_bytes_to_nat (bs : List Nat) : Nat :=
  bs.foldl (fun acc b => acc * 256 + b) 0

/-- `u32::from_be_bytes` (src/lib.rs line 124). -/
def u32_from_be_bytes (bs : List Nat) : Nat := be_bytes_to_nat bs

/-- The `w`-byte big-endian representation of `n % 256^w`; the shape of
Rust's `to_be_bytes` for a `w`-byte unsigned integer. -/
def natToBEBytes : Nat → Nat → List Nat
  | 0, _ => []
  | w + 1, n => natToBEBytes w (n / 256) ++ [n % 256]

/-- `i128::from_be_bytes` on a 16-byte list: unsigned big-endian value,
reinterpreted as two's-complement signed (src/lib.rs lines 132, 142). -/
def i128_from_be_bytes (bs : List Nat) : Int :=
  if be_bytes_to_nat bs < 2 ^ 127 then (be_bytes_to_nat bs : Int)
  else (be_bytes_to_nat bs : Int) - 2 ^ 128

/-- `i128::to_be_bytes` (src/lib.rs line 67): the 16-byte big-endian
two's-complement representation. -/
def i128_to_be_bytes (m : Int) : List Nat :=
  natToBEBytes 16 (m % (2 : Int) ^ 128).toNat

/-- `i32::to_be_bytes`: the 4-byte big-endian two's-complement
representation of a 32-bit signed value. -/
def i32_to_be_bytes (x : Int) : List Nat :=
  natToBEBytes 4 (x % (2 : Int) ^ 32).toNat

/-- Rust's `scale as i32` cast (src/lib.rs line 70): reinterpret the `u32`
bit pattern as a signed 32-bit value. -/
def u32_as_i32 (s : Nat) : Int :=
  if s % 2 ^ 32 < 2 ^ 31 then ((s % 2 ^ 32 : Nat) : Int)
  else ((s % 2 ^ 32 : Nat) : Int) - 2 ^ 32

/-- The decimal value as the codec sees it: `rust_decimal::Decimal` exposed
through its `mantissa()` (signed 128-bit) and `scale()` (`u32`) accessors,
which is exactly what `serialize` reads (src/lib.rs lines 67, 70) and what
`Decimal::from_i128_with_scale` receives (src/lib.rs line 105). -/
structure Decimal where
  mantissa : Int
  scale : Nat
  deriving DecidableEq, Repr

/-- `Decimal::from_i128_with_scale` (external `rust_decimal` constructor
used at src/lib.rs line 105), represented by its mantissa/scale pair. -/
def Decimal.from_i128_with_scale (m : Int) (s : Nat) : Decimal := ⟨m, s⟩

/-- `extract_scale_and_mantissa_from_slice` (src/lib.rs lines 120-150),
line for line.  The `.expect` on the scale conversion is modelled as a
`panic` outcome; the two mantissa `try_into` failures map to
`InvalidMantissaConversion` exactly as in the source. -/
def extract_scale_and_mantissa_from_slice (bytes : List Nat) :
    RustResult DecimalCqlError (Nat × Int) :=
  if bytes.length < SCALE_BYTES then
    .err (.ByteArrayTooShort bytes.length)
  else
    match try_into_array SCALE_BYTES (bytes.take SCALE_BYTES) with
    | none => .panic "Is safe because bytes length have been checked"
    | some scaleBytes =>
      let scale : Nat := u32_from_be_bytes scaleBytes
      let mantissa_bytes : List Nat := bytes.drop SCALE_BYTES
      if PADDING_BYTES ≤ mantissa_bytes.length then
        match try_into_array PADDING_BYTES (mantissa_bytes.take PADDING_BYTES) with
        | none => .err .InvalidMantissaConversion
        | some arr => .ok (scale, i128_from_be_bytes arr)
      else
        match try_into_array PADDING_BYTES
            (List.replicate (PADDING_BYTES - mantissa_bytes.length) 0 ++ mantissa_bytes) with
        | none => .err .InvalidMantissaConversion
        | some arr => .ok (scale, i128_from_be_bytes arr)

/-- `DeserializeValue::type_check` (src/lib.rs lines 87-95): `Ok(())` iff
the column type is `Native(Decimal)`, otherwise a `MismatchedType` error
carrying `format!("Expected {:?}, got {:?}", NativeType::Decimal, typ)`.
A pure function of `typ`. -/
def type_check (typ : ColumnType) : Except DecimalCqlError Unit :=
  if typ = .Native .Decimal then .ok ()
  else .error (.MismatchedType
    ("Expected " ++ nativeTypeDebug .Decimal ++ ", got " ++ columnTypeDebug typ))

/-- `DeserializeValue::deserialize` (src/lib.rs lines 97-107): a missing
frame is `FrameHasNoSlice`; otherwise the scale/mantissa extraction runs on
the frame's bytes and the resulting pair is fed to
`Decimal::from_i128_with_scale`.  `_typ` is received and ignored, as in the
source. -/
def deserialize (_typ : ColumnType) (frame : Option (List Nat)) :
    RustResult DecimalCqlError Decimal :=
  match frame with
  | none => .err .FrameHasNoSlice
  | some fs =>
    match extract_scale_and_mantissa_from_slice fs with
    | .err e => .err e
    | .panic msg => .panic msg
    | .ok (scale, mantissa) => .ok (Decimal.from_i128_with_scale mantissa scale)

/-- Byte output of `CqlDecimal::from_signed_be_bytes_and_exponent` followed
by `CqlDecimal::serialize` (scylla host framework, called at src/lib.rs
lines 68-72): the cell body is the 4-byte big-endian exponent followed by
the given mantissa bytes verbatim.  The framework's outer cell-length
prefix is stripped again before `deserialize` sees the frame slice, so it
is not part of the body; the repo's own test at src/lib.rs lines 164-180
pins this layout (`[0,0,0,20]` length prefix, then `[0,0,0,2]` scale, then
16 mantissa bytes). -/
def cql_decimal_serialize_body (mantissaBytes : List Nat) (exponent : Int) : List Nat :=
  i32_to_be_bytes exponent ++ mantissaBytes

/-- `SerializeValue::serialize` for `DecimalCql` (src/lib.rs lines 61-74):
takes the full 16-byte `to_be_bytes` of `mantissa()` and the `scale()` cast
to `i32`, and hands both to the `CqlDecimal` writer.  Returns the cell body
bytes. -/
def serialize (d : Decimal) (_typ : ColumnType) : List Nat :=
  cql_decimal_serialize_body (i128_to_be_bytes d.mantissa) (u32_as_i32 d.scale)

end RustDecimalCql
namespace RustDecimalCql

/-! ### Helper lemmas about the byte-level primitives -/

theorem length_natToBEBytes (w n : Nat) : (natToBEBytes w n).length = w := by
  induction w generalizing n with
  | zero => rfl
  | succ w ih => simp [natToBEBytes, ih]

theorem be_bytes_to_nat_append_singleton (xs : List Nat) (b : Nat) :
    be_bytes_to_nat (xs ++ [b]) = be_bytes_to_nat xs * 256 + b := by
  simp [be_bytes_to_nat, List.foldl_append]

theorem be_bytes_to_nat_natToBEBytes (w n : Nat) :
    be_bytes_to_nat (natToBEBytes w n) = n % 256 ^ w := by
  induction w generalizing n with
  | zero => simp [natToBEBytes, be_bytes_to_nat, Nat.mod_one]
  | succ w ih =>
    rw [natToBEBytes, be_bytes_to_nat_append_singleton, ih]
    have h : n % (256 * 256 ^ w) = n % 256 + 256 * (n / 256 % 256 ^ w) := Nat.mod_mul
    have hp : (256 : Nat) ^ (w + 1) = 256 * 256 ^ w := by ring
    rw [hp, h]
    ring

theorem i128_round_trip (m : Int)
    (hlo : -(2 ^ 127) ≤ m) (hhi : m < 2 ^ 127) :
    i128_from_be_bytes (i128_to_be_bytes m) = m := by
  unfold i128_from_be_bytes i128_to_be_bytes
  rw [be_bytes_to_nat_natToBEBytes]
  have hmod : (((m % (2 : Int) ^ 128).toNat : Nat) : Int) = m % (2 : Int) ^ 128 :=
    Int.toNat_of_nonneg (Int.emod_nonneg m (by norm_num))
  have htmod : (m % (2 : Int) ^ 128).toNat % 256 ^ 16 = (m % (2 : Int) ^ 128).toNat := by
    apply Nat.mod_eq_of_lt
    omega
  rw [htmod]
  split <;> omega

theorem u32_round_trip (s : Nat) (hs : s < 2 ^ 32) :
    u32_from_be_bytes (natToBEBytes 4 s) = s := by
  unfold u32_from_be_bytes
  rw [be_bytes_to_nat_natToBEBytes]
  omega

theorem i32_bytes_of_u32_cast (s : Nat) (hs : s < 2 ^ 32) :
    i32_to_be_bytes (u32_as_i32 s) = natToBEBytes 4 s := by
  unfold i32_to_be_bytes u32_as_i32
  have hmod : s % 2 ^ 32 = s := Nat.mod_eq_of_lt hs
  rw [hmod]
  congr 1
  split <;> omega

/-- The mantissa the decoder produces from a buffer of length at least 4:
truncate the post-scale bytes to 16 or left-pad them with zeros to 16, then
read as big-endian signed 128-bit (src/lib.rs lines 130-147). -/
def decoded_mantissa (bytes : List Nat) : Int :=
  if PADDING_BYTES ≤ (bytes.drop SCALE_BYTES).length then
    i128_from_be_bytes ((bytes.drop SCALE_BYTES).take PADDING_BYTES)
  else
    i128_from_be_bytes
      (List.replicate (PADDING_BYTES - (bytes.drop SCALE_BYTES).length) 0 ++
        bytes.drop SCALE_BYTES)

theorem extract_eq_ok (b : List Nat) (h : 4 ≤ b.length) :
    extract_scale_and_mantissa_from_slice b =
      RustResult.ok (u32_from_be_bytes (b.take 4), decoded_mantissa b) := by
  have h4 : (b.take 4).length = 4 := by
    rw [List.length_take]
    omega
  unfold extract_scale_and_mantissa_from_slice decoded_mantissa
  rw [SCALE_BYTES, PADDING_BYTES]
  rw [if_neg (by omega)]
  split
  · rename_i heq
    rw [try_into_array, if_pos h4] at heq
    exact absurd heq (by simp)
  · rename_i scaleBytes heq
    rw [try_into_array, if_pos h4] at heq
    injection heq with heq
    subst heq
    by_cases hm : 16 ≤ (b.drop 4).length
    · rw [if_pos hm, if_pos hm]
      have h16 : ((b.drop 4).take 16).length = 16 := by
        rw [List.length_take]
        omega
      split
      · rename_i heq2
        rw [try_into_array, if_pos h16] at heq2
        exact absurd heq2 (by simp)
      · rename_i arr heq2
        rw [try_into_array, if_pos h16] at heq2
        injection heq2 with heq2
        subst heq2
        rfl
    · rw [if_neg hm, if_neg hm]
      have h16 : (List.replicate (16 - (b.drop 4).length) 0 ++ b.drop 4).length = 16 := by
        rw [List.length_append, List.length_replicate]
        omega
      split
      · rename_i heq2
        rw [try_into_array, if_pos h16] at heq2
        exact absurd heq2 (by simp)
      · rename_i arr heq2
        rw [try_into_array, if_pos h16] at heq2
        injection heq2 with heq2
        subst heq2
        rfl

theorem extract_eq_err_short (b : List Nat) (h : b.length < 4) :
    extract_scale_and_mantissa_from_slice b =
      RustResult.err (.ByteArrayTooShort b.length) := by
  unfold extract_scale_and_mantissa_from_slice
  rw [SCALE_BYTES, if_pos h]

theorem serialize_eq (m : Int) (s : Nat) (t : ColumnType) (hs : s < 2 ^ 32) :
    serialize ⟨m, s⟩ t = natToBEBytes 4 s ++ i128_to_be_bytes m := by
  unfold serialize cql_decimal_serialize_body
  rw [i32_bytes_of_u32_cast s hs]

end RustDecimalCql

namespace RustDecimalCql

theorem deserialize_some (t : ColumnType) (b : List Nat) :
    deserialize t (some b) =
      match extract_scale_and_mantissa_from_slice b with
      | .err e => .err e
      | .panic msg => .panic msg
      | .ok (scale, mantissa) => .ok (Decimal.from_i128_with_scale mantissa scale) := rfl

/-! ### The claims -/

/-- C1: for every decimal value whose unscaled mantissa is representable in
a signed 128-bit integer and whose scale is non-negative and below `2^32`,
deserializing the serialized cell body yields an equal value:
`decode(encode(v)) = v`. -/
theorem deserialize_serialize_round_trip (m : Int) (s : Nat) (t1 t2 : ColumnType)
    (hlo : -(2 ^ 127) ≤ m) (hhi : m < 2 ^ 127) (hs : s < 2 ^ 32) :
    deserialize t2 (some (serialize ⟨m, s⟩ t1)) = RustResult.ok ⟨m, s⟩ := by
  have hA : (natToBEBytes 4 s).length = 4 := length_natToBEBytes 4 s
  have hB : (i128_to_be_bytes m).length = 16 := length_natToBEBytes 16 _
  have hlen : 4 ≤ (natToBEBytes 4 s ++ i128_to_be_bytes m).length := by
    rw [List.length_append, hA, hB]
    omega
  have hext := extract_eq_ok _ hlen
  have hdm : decoded_mantissa (natToBEBytes 4 s ++ i128_to_be_bytes m) = m := by
    unfold decoded_mantissa
    rw [SCALE_BYTES, PADDING_BYTES, List.drop_left' hA]
    rw [if_pos (le_of_eq hB.symm)]
    rw [show (16 : Nat) = (i128_to_be_bytes m).length from hB.symm, List.take_length]
    exact i128_round_trip m hlo hhi
  rw [List.take_left' hA, hdm, u32_round_trip s hs] at hext
  rw [serialize_eq m s t1 hs, deserialize_some, hext]
  rfl

/-- C1 witness: round trip at mantissa 12345, scale 2. -/
theorem deserialize_serialize_round_trip_witness :
    deserialize (.Native .Decimal) (some (serialize ⟨12345, 2⟩ (.Native .Decimal))) =
      RustResult.ok ⟨12345, 2⟩ :=
  deserialize_serialize_round_trip 12345 2 (.Native .Decimal) (.Native .Decimal)
    (by norm_num) (by norm_num) (by norm_num)

/-- C2: for every input (absent frame or byte slice of any length,
malformed ones included) `deserialize` returns either a value or a typed
error; the panic outcome (the `.expect` in the scale conversion) is never
reached. -/
theorem deserialize_never_panics (t : ColumnType) (frame : Option (List Nat)) :
    ((∃ d, deserialize t frame = RustResult.ok d) ∨
      (∃ e, deserialize t frame = RustResult.err e)) ∧
    ∀ msg, deserialize t frame ≠ RustResult.panic msg := by
  have h : (∃ d, deserialize t frame = RustResult.ok d) ∨
      (∃ e, deserialize t frame = RustResult.err e) := by
    cases frame with
    | none => exact Or.inr ⟨.FrameHasNoSlice, rfl⟩
    | some b =>
      by_cases hb : 4 ≤ b.length
      · refine Or.inl ⟨⟨decoded_mantissa b, u32_from_be_bytes (b.take 4)⟩, ?_⟩
        rw [deserialize_some, extract_eq_ok b hb]
        rfl
      · refine Or.inr ⟨.ByteArrayTooShort b.length, ?_⟩
        rw [deserialize_some, extract_eq_err_short b (by omega)]
  refine ⟨h, ?_⟩
  intro msg hc
  rcases h with ⟨d, hd⟩ | ⟨e, he⟩
  · rw [hd] at hc
    exact RustResult.noConfusion hc
  · rw [he] at hc
    exact RustResult.noConfusion hc

/-- C3: every byte slice shorter than 4 bytes is rejected with
`ByteArrayTooShort` carrying exactly the slice's length, and no byte slice
of length 4 or more ever produces that error. -/
theorem short_buffer_rejection :
    (∀ b : List Nat, b.length < 4 →
      extract_scale_and_mantissa_from_slice b =
        RustResult.err (.ByteArrayTooShort b.length)) ∧
    (∀ b : List Nat, 4 ≤ b.length → ∀ n,
      extract_scale_and_mantissa_from_slice b ≠
        RustResult.err (.ByteArrayTooShort n)) := by
  refine ⟨fun b h => extract_eq_err_short b h, ?_⟩
  intro b h n hc
  rw [extract_eq_ok b h] at hc
  exact RustResult.noConfusion hc

/-- C3 witness: the 3-byte slice `[0,0,0]` is rejected with
`ByteArrayTooShort 3`. -/
theorem short_buffer_rejection_witness :
    extract_scale_and_mantissa_from_slice [0, 0, 0] =
      RustResult.err (.ByteArrayTooShort 3) :=
  short_buffer_rejection.1 [0, 0, 0] (by decide)

/-- C4: with a 4-byte scale field and a mantissa field of at least 16
bytes, only the first 16 mantissa bytes matter: decoding
`scale_bytes ++ m` equals decoding `scale_bytes ++ m.take 16`. -/
theorem mantissa_truncation (sb m : List Nat) (hsb : sb.length = 4)
    (hm : 16 ≤ m.length) :
    extract_scale_and_mantissa_from_slice (sb ++ m) =
      extract_scale_and_mantissa_from_slice (sb ++ m.take 16) := by
  have htake : (m.take 16).length = 16 := by
    rw [List.length_take]
    omega
  have h1 : 4 ≤ (sb ++ m).length := by
    rw [List.length_append]
    omega
  have h2 : 4 ≤ (sb ++ m.take 16).length := by
    rw [List.length_append]
    omega
  have hdm : decoded_mantissa (sb ++ m) = decoded_mantissa (sb ++ m.take 16) := by
    unfold decoded_mantissa
    rw [SCALE_BYTES, PADDING_BYTES, List.drop_left' hsb, List.drop_left' hsb]
    rw [if_pos hm, if_pos (le_of_eq htake.symm), List.take_take]
    simp
  rw [extract_eq_ok _ h1, extract_eq_ok _ h2, List.take_left' hsb,
    List.take_left' hsb, hdm]

/-- C4 witness: a 17-byte mantissa field decodes like its first 16 bytes. -/
theorem mantissa_truncation_witness :
    extract_scale_and_mantissa_from_slice
        ([0, 0, 0, 2] ++ [1, 2, 3, 4, 5, 6, 7, 8, 9, 10, 11, 12, 13, 14, 15, 16, 17]) =
      extract_scale_and_mantissa_from_slice
        ([0, 0, 0, 2] ++
          [1, 2, 3, 4, 5, 6, 7, 8, 9, 10, 11, 12, 13, 14, 15, 16, 17].take 16) :=
  mantissa_truncation [0, 0, 0, 2]
    [1, 2, 3, 4, 5, 6, 7, 8, 9, 10, 11, 12, 13, 14, 15, 16, 17] rfl (by decide)

/-- C5: with a 4-byte scale field and a mantissa field `m` shorter than 16
bytes, the decoder left-pads `m` with `16 - m.length` zero bytes and reads
the result as big-endian signed 128-bit, whatever `m`'s leading byte is;
and a scale-only 4-byte input yields mantissa 0 with the scale read from
those 4 bytes. -/
theorem mantissa_left_padding :
    (∀ sb m : List Nat, sb.length = 4 → m.length < 16 →
      extract_scale_and_mantissa_from_slice (sb ++ m) =
        RustResult.ok (u32_from_be_bytes sb,
          i128_from_be_bytes (List.replicate (16 - m.length) 0 ++ m))) ∧
    (∀ sb : List Nat, sb.length = 4 →
      extract_scale_and_mantissa_from_slice sb =
        RustResult.ok (u32_from_be_bytes sb, 0)) := by
  have key : ∀ sb m : List Nat, sb.length = 4 → m.length < 16 →
      extract_scale_and_mantissa_from_slice (sb ++ m) =
        RustResult.ok (u32_from_be_bytes sb,
          i128_from_be_bytes (List.replicate (16 - m.length) 0 ++ m)) := by
    intro sb m hsb hm
    have h1 : 4 ≤ (sb ++ m).length := by
      rw [List.length_append]
      omega
    have hdm : decoded_mantissa (sb ++ m) =
        i128_from_be_bytes (List.replicate (16 - m.length) 0 ++ m) := by
      unfold decoded_mantissa
      rw [SCALE_BYTES, PADDING_BYTES, List.drop_left' hsb, if_neg (by omega)]
    rw [extract_eq_ok _ h1, List.take_left' hsb, hdm]
  refine ⟨key, ?_⟩
  intro sb hsb
  have h := key sb [] hsb (by decide)
  rw [List.append_nil] at h
  have hz : i128_from_be_bytes
      (List.replicate (16 - ([] : List Nat).length) 0 ++ ([] : List Nat)) = 0 := by
    decide
  rw [h, hz]

/-- C5 witness: `[0,0,0,2] ++ [130]` decodes to scale 2, mantissa 130. -/
theorem mantissa_left_padding_witness :
    extract_scale_and_mantissa_from_slice ([0, 0, 0, 2] ++ [130]) =
      RustResult.ok (2, 130) :=
  mantissa_left_padding.1 [0, 0, 0, 2] [130] rfl (by decide)

end RustDecimalCql

namespace RustDecimalCql

/-- Modelled from the spec: the "minimal-length big-endian two's-complement
signed-integer" mantissa encoding the spec attributes to the encoder.  A
leading byte is redundant when it is `0x00` followed by a byte below
`0x80`, or `0xFF` followed by a byte of at least `0x80`; the minimal
encoding drops every redundant leading byte of the fixed-width form. -/
def stripRedundantLeadingBytes : List Nat → List Nat
  | [] => []
  | [b] => [b]
  | b :: c :: rest =>
    if (b = 0 ∧ c < 128) ∨ (b = 255 ∧ 128 ≤ c) then
      stripRedundantLeadingBytes (c :: rest)
    else b :: c :: rest

/-- Modelled from the spec: minimal-length big-endian two's-complement
encoding of a signed 128-bit mantissa. -/
def spec_minimal_twos_complement (m : Int) : List Nat :=
  stripRedundantLeadingBytes (i128_to_be_bytes m)

set_option maxRecDepth 8000 in
/-- C6: the encoder emits the 4-byte big-endian unsigned scale followed by
the full fixed-width 16-byte big-endian two's-complement form of the
mantissa, with no trimming; at mantissa 12345 and scale 2 the cell body is
`00 00 00 02` followed by the 16-byte form of 12345. -/
theorem encoder_fixed_width (m : Int) (s : Nat) (t : ColumnType) (hs : s < 2 ^ 32) :
    serialize ⟨m, s⟩ t = natToBEBytes 4 s ++ i128_to_be_bytes m ∧
    (natToBEBytes 4 s).length = 4 ∧
    (i128_to_be_bytes m).length = 16 ∧
    serialize ⟨12345, 2⟩ t =
      [0, 0, 0, 2] ++ [0, 0, 0, 0, 0, 0, 0, 0, 0, 0, 0, 0, 0, 0, 48, 57] := by
  refine ⟨serialize_eq m s t hs, length_natToBEBytes 4 s, length_natToBEBytes 16 _, ?_⟩
  rfl

/-- C6 witness: the general decomposition at mantissa 12345, scale 2. -/
theorem encoder_fixed_width_witness :
    serialize ⟨12345, 2⟩ (.Native .Decimal) =
      natToBEBytes 4 2 ++ i128_to_be_bytes 12345 :=
  (encoder_fixed_width 12345 2 (.Native .Decimal) (by norm_num)).1

set_option maxRecDepth 8000 in
/-- C7 counterexample: the claim says the emitted mantissa field is the
minimal-length big-endian two's-complement encoding; at mantissa 12345 the
minimal encoding is the 2-byte `[48, 57]`, while the encoder emits the full
16-byte field with 14 leading zero bytes. -/
theorem encoder_not_minimal :
    (serialize ⟨12345, 2⟩ (.Native .Decimal)).drop 4 ≠
      spec_minimal_twos_complement 12345 ∧
    spec_minimal_twos_complement 12345 = [48, 57] ∧
    (serialize ⟨12345, 2⟩ (.Native .Decimal)).drop 4 =
      [0, 0, 0, 0, 0, 0, 0, 0, 0, 0, 0, 0, 0, 0, 48, 57] := by
  refine ⟨?_, rfl, rfl⟩
  intro hc
  exact absurd (rfl.trans hc) (by decide)

/-- C7 amended: for every decimal value the mantissa field emitted by
encode (the cell body past the 4-byte scale) is the full fixed-width
16-byte big-endian two's-complement encoding of the signed mantissa, never
a shortened one. -/
theorem encoder_mantissa_field_fixed_width (d : Decimal) (t : ColumnType) :
    (serialize d t).drop 4 = i128_to_be_bytes d.mantissa ∧
    ((serialize d t).drop 4).length = 16 := by
  have h4 : (i32_to_be_bytes (u32_as_i32 d.scale)).length = 4 :=
    length_natToBEBytes 4 _
  have hdrop : (serialize d t).drop 4 = i128_to_be_bytes d.mantissa := by
    unfold serialize cql_decimal_serialize_body
    exact List.drop_left' h4
  exact ⟨hdrop, by rw [hdrop]; exact length_natToBEBytes 16 _⟩

/-- C8: `type_check` succeeds exactly on the native `Decimal` column type;
on every other column type it returns a `MismatchedType` error whose
message names the expected tag (`Decimal`) and the actual tag; it is a pure
function of its argument. -/
theorem type_check_exact (t : ColumnType) :
    (type_check t = .ok () ↔ t = .Native .Decimal) ∧
    (t ≠ .Native .Decimal →
      type_check t = .error (.MismatchedType
        ("Expected " ++ nativeTypeDebug .Decimal ++ ", got " ++ columnTypeDebug t))) := by
  refine ⟨⟨?_, ?_⟩, ?_⟩
  · intro h
    by_contra hne
    rw [type_check, if_neg hne] at h
    exact Except.noConfusion h
  · intro h
    rw [type_check, if_pos h]
  · intro hne
    rw [type_check, if_neg hne]

/-- C8 witness: the `Int` column type is rejected with the descriptive
mismatch message. -/
theorem type_check_exact_witness :
    type_check (.Native .Int) = .error (.MismatchedType
      ("Expected " ++ nativeTypeDebug .Decimal ++ ", got "
        ++ columnTypeDebug (.Native .Int))) :=
  (type_check_exact (.Native .Int)).2 (by decide)

/-- C9: on every byte slice of length at least 4 the extraction succeeds,
so the defensive `InvalidMantissaConversion` branch is unreachable and that
error value is never returned. -/
theorem conversion_error_unreachable (b : List Nat) (h : 4 ≤ b.length) :
    (∃ p, extract_scale_and_mantissa_from_slice b = RustResult.ok p) ∧
    extract_scale_and_mantissa_from_slice b ≠
      RustResult.err .InvalidMantissaConversion := by
  refine ⟨⟨(u32_from_be_bytes (b.take 4), decoded_mantissa b), extract_eq_ok b h⟩, ?_⟩
  intro hc
  rw [extract_eq_ok b h] at hc
  exact RustResult.noConfusion hc

/-- C9 witness: the 5-byte slice `[0,0,0,2,130]` extracts successfully. -/
theorem conversion_error_unreachable_witness :
    (∃ p, extract_scale_and_mantissa_from_slice [0, 0, 0, 2, 130] = RustResult.ok p) ∧
    extract_scale_and_mantissa_from_slice [0, 0, 0, 2, 130] ≠
      RustResult.err .InvalidMantissaConversion :=
  conversion_error_unreachable [0, 0, 0, 2, 130] (by decide)

/-- C10: `deserialize` depends only on the frame, not on the column-type
argument, and performs no type check of its own: a mismatched column type
passed directly to `deserialize` goes undetected and a well-formed frame
still decodes. -/
theorem deserialize_ignores_column_type :
    (∀ (t1 t2 : ColumnType) (frame : Option (List Nat)),
      deserialize t1 frame = deserialize t2 frame) ∧
    deserialize (.Native .Int) (some [0, 0, 0, 2, 130]) =
      RustResult.ok ⟨130, 2⟩ := by
  refine ⟨fun t1 t2 frame => rfl, ?_⟩
  rfl

end RustDecimalCql
